import Mathlib

/-!
# Verification of the crawler core (`src/crawler.py`)

Shallow embedding of the retrieval program: URL sequence generation
(`build_urls`), the content gate (`is_html_response`), filename
construction (`file_name_for_index`) and the retrieval loop (`crawl`).

Modelling conventions:
* Python strings are Lean `String`s; `str.format`, `in`, `lower`,
  `startswith` are embedded as explicit character-list functions.
* The filesystem is a partial map `String → Option String`; a file's
  size is the length of its content (`os.path.getsize`).
* The HTTP layer is an oracle `String → FetchResult` giving, per URL,
  the final outcome `session.get` delivers to `crawl` (the
  transport-level retries configured by `make_session` happen below
  this interface and are invisible to the loop, exactly as in the
  code); `resp.text` is the already-decoded body string.
* A fallible file write is an oracle `String → Bool` telling which
  paths raise on `open`/`write`. The uncaught Python exception aborts
  `crawl`; this is the `.error` constructor, carrying the failing path
  and the loop state at the abort point.
* `sys.exit(2)` at the end of `crawl` is the `exit_code` field of the
  result (`2` when `downloaded < total`, else the normal `0`).
-/

namespace Crawler

/-- Configuration record, embedding `CrawlerConfig` (crawler.py:17).
The two duration fields are rationals standing for the Python floats;
no claim depends on their values. -/
structure CrawlerConfig where
  base_url : String
  start_page : Int
  end_page : Int
  out_dir : String
  index_path : String
  delay_sec : ℚ
  timeout_sec : ℚ
  user_agent : String

/-- One pass of Python `{n}`-substitution over the template's
characters: models `base_url.format(n=n)` for templates whose only
replacement field is `{n}` (the template shape documented in
`build_urls`, crawler.py:40). -/
def substN (n : Int) : List Char → List Char
  | '{' :: 'n' :: '}' :: rest => (toString n).data ++ substN n rest
  | c :: rest => c :: substN n rest
  | [] => []

/-- Python `base_url.format(n=n)` on the URL template. -/
def formatN (base_url : String) (n : Int) : String :=
  String.mk (substN n base_url.data)

/-- Embeds `build_urls` (crawler.py:36): one `(n, url)` pair for every
`n` in Python `range(start_page, end_page + 1)`. -/
def build_urls (base_url : String) (start_page end_page : Int) : List (Int × String) :=
  (List.range (end_page + 1 - start_page).toNat).map
    (fun k => (start_page + k, formatN base_url (start_page + k)))

/-- Substring test on character lists (helper for Python `in`). -/
def infixAt (needle : List Char) : List Char → Bool
  | [] => needle.isEmpty
  | c :: rest => needle.isPrefixOf (c :: rest) || infixAt needle rest

/-- Python `needle in hay` on strings: contiguous-substring test. -/
def pyContains (hay needle : String) : Bool :=
  infixAt needle.data hay.data

/-- Python `s.lower()` as used on ASCII header values. -/
def pyLower (s : String) : String :=
  String.mk (s.data.map Char.toLower)

/-- Python `s.startswith(p)`. -/
def pyStartsWith (s p : String) : Bool :=
  p.data.isPrefixOf s.data

/-- Embeds `is_html_response` (crawler.py:92). The argument models the
response's Content-Type header (`none` = header absent; `.getD ""`
models the Python default `""` of `headers.get`). -/
def is_html_response (content_type : Option String) : Bool :=
  let ctype := pyLower (content_type.getD "")
  pyContains ctype "text/html" || pyContains ctype "application/xhtml+xml" ||
    pyStartsWith ctype "text/"

/-- Embeds `file_name_for_index` (crawler.py:115): Python
`f"{i:0{total_digits}d}.html"` zero-pads the decimal of `i` on the
left to at least `total_digits` characters (never truncating). -/
def padLeftZeros (width : Nat) (s : String) : String :=
  String.mk (List.replicate (width - s.length) '0' ++ s.data)

/-- `file_name_for_index` proper (crawler.py:115). -/
def file_name_for_index (i : Nat) (total_digits : Nat := 4) : String :=
  padLeftZeros total_digits (Nat.repr i) ++ ".html"

/-- Outcome of `session.get` for one URL, as observed by `crawl`:
either a transport failure (`requests.RequestException`, no response
object) or a received response with status, Content-Type header and
decoded body. -/
inductive FetchResult where
  | transportError
  | response (status : Nat) (content_type : Option String) (body : String)

/-- Mutable state of the `for` loop in `crawl` (crawler.py:150-191),
plus two observation logs: the URLs actually requested over the
network (`requests`, in order) and the number of `time.sleep` delays
applied (`delays`). -/
structure LoopState where
  fs : String → Option String
  index_lines : List String
  downloaded : Nat
  requests : List String
  delays : Nat

/-- Python `os.path.exists(p) and os.path.getsize(p) > 0`
(crawler.py:156). -/
def existsNonempty (fs : String → Option String) (p : String) : Bool :=
  match fs p with
  | some c => decide (0 < c.length)
  | none => false

/-- One iteration of the `for` body of `crawl` (crawler.py:150-191)
for the target at 1-based sequence index `idx` with URL `url`. -/
def crawl_step (net : String → FetchResult) (write_fails : String → Bool)
    (out_dir : String) (digits : Nat) (st : LoopState) (idx : Nat) (url : String) :
    Except (String × LoopState) LoopState :=
  let fname := file_name_for_index idx digits
  let out_path := out_dir ++ "/" ++ fname
  if existsNonempty st.fs out_path then
    .ok { st with index_lines := st.index_lines ++ [fname ++ "\t" ++ url],
                  downloaded := st.downloaded + 1 }
  else
    let st1 : LoopState := { st with requests := st.requests ++ [url] }
    match net url with
    | .transportError => .ok st1
    | .response status content_type body =>
      if status ≠ 200 then .ok st1
      else if is_html_response content_type = false then .ok st1
      else if write_fails out_path then .error (out_path, st1)
      else .ok { st1 with
                 fs := fun p => if p = out_path then some body else st1.fs p,
                 index_lines := st1.index_lines ++ [fname ++ "\t" ++ url],
                 downloaded := st1.downloaded + 1,
                 delays := st1.delays + 1 }

/-- The `for` loop of `crawl` over the enumerated targets. -/
def crawl_loop (net : String → FetchResult) (write_fails : String → Bool)
    (out_dir : String) (digits : Nat) :
    List (Nat × Int × String) → LoopState → Except (String × LoopState) LoopState
  | [], st => .ok st
  | (idx, _, url) :: rest, st =>
    match crawl_step net write_fails out_dir digits st idx url with
    | .error e => .error e
    | .ok st1 => crawl_loop net write_fails out_dir digits rest st1

/-- Observable result of a completed run of `crawl`: final filesystem
(manifest file included), manifest content, accumulated `index_lines`,
the two counters of the summary, the request/delay logs, and the
process completion status (`2` from `sys.exit(2)` when
`downloaded < total`, else `0`). -/
structure CrawlResult where
  fs : String → Option String
  manifest : String
  index_lines : List String
  downloaded : Nat
  total : Nat
  requests : List String
  delays : Nat
  exit_code : Nat

/-- The digit width used by `crawl` (crawler.py:142): Python
`max(4, len(str(total)))`. -/
def run_width (total : Nat) : Nat :=
  max 4 (Nat.repr total).length

/-- Embeds `crawl` (crawler.py:126): build the targets, run the loop,
then write `index.txt` in a single write ("\n".join plus a trailing
newline) and report the summary. `fs0` is the filesystem at start;
`ensure_dir` and console printing have no observable effect here. -/
def crawl (fs0 : String → Option String) (net : String → FetchResult)
    (write_fails : String → Bool) (config : CrawlerConfig) :
    Except (String × LoopState) CrawlResult :=
  let targets := build_urls config.base_url config.start_page config.end_page
  let total := targets.length
  let digits := run_width total
  let init : LoopState := ⟨fs0, [], 0, [], 0⟩
  match crawl_loop net write_fails config.out_dir digits (List.enumFrom 1 targets) init with
  | .error e => .error e
  | .ok st =>
    if write_fails config.index_path then .error (config.index_path, st)
    else
      let manifest := String.intercalate "\n" st.index_lines ++ "\n"
      .ok { fs := fun p => if p = config.index_path then some manifest else st.fs p,
            manifest := manifest,
            index_lines := st.index_lines,
            downloaded := st.downloaded,
            total := total,
            requests := st.requests,
            delays := st.delays,
            exit_code := if st.downloaded < total then 2 else 0 }

/-- Projection of a completed run onto its decidable observables:
`(requests, index_lines, manifest, downloaded, total, exit_code,
delays)`; `none` when the run aborted with an uncaught write error. -/
def runView (x : Except (String × LoopState) CrawlResult) :
    Option (List String × List String × String × Nat × Nat × Nat × Nat) :=
  match x with
  | .ok r => some (r.requests, r.index_lines, r.manifest, r.downloaded, r.total,
                   r.exit_code, r.delays)
  | .error _ => none

/-- Projection of an aborted run onto its decidable observables: the
failing path, the URLs requested before the abort, and the manifest
entries accumulated (and lost) at that point. -/
def abortView (x : Except (String × LoopState) CrawlResult) :
    Option (String × List String × List String) :=
  match x with
  | .error (p, st) => some (p, st.requests, st.index_lines)
  | .ok _ => none

/-- Destination path of the target at sequence index `idx` for a given
configuration, as `crawl` computes it (`os.path.join` on a Unix
path). -/
def out_path_for (config : CrawlerConfig) (idx : Nat) : String :=
  config.out_dir ++ "/" ++
    file_name_for_index idx
      (run_width (build_urls config.base_url config.start_page config.end_page).length)

/-- State after the loop has recorded a network attempt for `url` and
nothing else (the common part of every non-skip branch). -/
def reqLogged (st : LoopState) (url : String) : LoopState :=
  { st with requests := st.requests ++ [url] }

/-! ## Concrete scenario fixtures -/

/-- Empty output directory: no file exists. -/
def emptyFs : String → Option String := fun _ => none

/-- Output directory in which the files for sequence indices 1, 2 and
3 exist with nonzero size. -/
def fsWith123 : String → Option String := fun p =>
  if p = "out/0001.html" ∨ p = "out/0002.html" ∨ p = "out/0003.html" then some "x" else none

/-- Network oracle: every URL answers 200 with an HTML content type. -/
def netAllHtml : String → FetchResult := fun _ => .response 200 (some "text/html") "B"

/-- Network oracle: URLs for pages 2 and 4 of the five-page scenario
answer 404; every other URL answers 200 with an HTML content type. -/
def netTwo404 : String → FetchResult := fun u =>
  if u = "u/2" ∨ u = "u/4" then .response 404 none "" else .response 200 (some "text/html") "B"

/-- Network oracle: every URL answers 200 declaring
`application/pdf`. -/
def netPdf : String → FetchResult := fun _ => .response 200 (some "application/pdf") "P"

/-- Network oracle: every request fails at the transport level. -/
def netDown : String → FetchResult := fun _ => .transportError

/-- File writes never fail. -/
def neverFails : String → Bool := fun _ => false

/-- The write of the first page's file raises; all other writes
succeed. -/
def failsFirstFile : String → Bool := fun p => p = "out/0001.html"

/-- Five-page configuration over the template `u/{n}`. -/
def cfg5 : CrawlerConfig :=
  ⟨"u/{n}", 1, 5, "out", "idx.txt", 4/5, 20, "ua"⟩

/-- Two-page configuration over the template `u/{n}`. -/
def cfg2 : CrawlerConfig :=
  ⟨"u/{n}", 1, 2, "out", "idx.txt", 4/5, 20, "ua"⟩

/-- Empty-range configuration (`start_page > end_page`). -/
def cfgEmpty : CrawlerConfig :=
  ⟨"u/{n}", 5, 3, "out", "idx.txt", 4/5, 20, "ua"⟩

/-- The content-gate acceptance condition as §4.3 of the spec words
it, applied to a present declared content type: after case-insensitive
folding, the declared type indicates an HTML document, indicates an
XHTML document, or begins with the generic "text" category. -/
def specTextLike (declared : String) : Bool :=
  pyContains (pyLower declared) "text/html" ||
    pyContains (pyLower declared) "application/xhtml+xml" ||
    pyStartsWith (pyLower declared) "text/"

/-- Big-endian list of decimal digit characters of `n`: the reference
rendering that `Nat.repr` produces (proved below). -/
def decChars (n : Nat) : List Char :=
  if _h : n < 10 then [Nat.digitChar n]
  else decChars (n / 10) ++ [Nat.digitChar (n % 10)]
termination_by n
decreasing_by exact Nat.div_lt_self (by omega) (by omega)

/-- Numeric value of a big-endian decimal digit string, folded onto an
accumulator. -/
def ofDecFrom (a : Nat) (l : List Char) : Nat :=
  List.foldl (fun acc c => acc * 10 + (c.toNat - 48)) a l

/-- Numeric value of a big-endian decimal digit string. -/
def ofDec (l : List Char) : Nat :=
  ofDecFrom 0 l

/-- Every character of the list is a decimal digit character. -/
def DigitsOnly (l : List Char) : Prop :=
  ∀ c ∈ l, ∃ d, d < 10 ∧ c = Nat.digitChar d

/-! ## Branch analysis of the loop body -/

theorem crawl_step_skip (net : String → FetchResult) (write_fails : String → Bool)
    (out_dir : String) (digits : Nat) (st : LoopState) (idx : Nat) (url : String)
    (h : existsNonempty st.fs (out_dir ++ "/" ++ file_name_for_index idx digits) = true) :
    crawl_step net write_fails out_dir digits st idx url =
      .ok { st with
            index_lines := st.index_lines ++ [file_name_for_index idx digits ++ "\t" ++ url],
            downloaded := st.downloaded + 1 } := by
  simp [crawl_step, h]

theorem crawl_step_transport (net : String → FetchResult) (write_fails : String → Bool)
    (out_dir : String) (digits : Nat) (st : LoopState) (idx : Nat) (url : String)
    (h : existsNonempty st.fs (out_dir ++ "/" ++ file_name_for_index idx digits) = false)
    (hnet : net url = .transportError) :
    crawl_step net write_fails out_dir digits st idx url = .ok (reqLogged st url) := by
  simp [crawl_step, h, hnet, reqLogged]

theorem crawl_step_badStatus (net : String → FetchResult) (write_fails : String → Bool)
    (out_dir : String) (digits : Nat) (st : LoopState) (idx : Nat) (url : String)
    (status : Nat) (content_type : Option String) (body : String)
    (h : existsNonempty st.fs (out_dir ++ "/" ++ file_name_for_index idx digits) = false)
    (hnet : net url = .response status content_type body) (hs : status ≠ 200) :
    crawl_step net write_fails out_dir digits st idx url = .ok (reqLogged st url) := by
  simp [crawl_step, h, hnet, hs, reqLogged]

theorem crawl_step_rejected (net : String → FetchResult) (write_fails : String → Bool)
    (out_dir : String) (digits : Nat) (st : LoopState) (idx : Nat) (url : String)
    (content_type : Option String) (body : String)
    (h : existsNonempty st.fs (out_dir ++ "/" ++ file_name_for_index idx digits) = false)
    (hnet : net url = .response 200 content_type body)
    (hct : is_html_response content_type = false) :
    crawl_step net write_fails out_dir digits st idx url = .ok (reqLogged st url) := by
  simp [crawl_step, h, hnet, hct, reqLogged]

theorem crawl_step_writeError (net : String → FetchResult) (write_fails : String → Bool)
    (out_dir : String) (digits : Nat) (st : LoopState) (idx : Nat) (url : String)
    (content_type : Option String) (body : String)
    (h : existsNonempty st.fs (out_dir ++ "/" ++ file_name_for_index idx digits) = false)
    (hnet : net url = .response 200 content_type body)
    (hct : is_html_response content_type = true)
    (hwf : write_fails (out_dir ++ "/" ++ file_name_for_index idx digits) = true) :
    crawl_step net write_fails out_dir digits st idx url =
      .error (out_dir ++ "/" ++ file_name_for_index idx digits, reqLogged st url) := by
  simp [crawl_step, h, hnet, hct, hwf, reqLogged]

theorem crawl_step_save (net : String → FetchResult) (write_fails : String → Bool)
    (out_dir : String) (digits : Nat) (st : LoopState) (idx : Nat) (url : String)
    (content_type : Option String) (body : String)
    (h : existsNonempty st.fs (out_dir ++ "/" ++ file_name_for_index idx digits) = false)
    (hnet : net url = .response 200 content_type body)
    (hct : is_html_response content_type = true)
    (hwf : write_fails (out_dir ++ "/" ++ file_name_for_index idx digits) = false) :
    crawl_step net write_fails out_dir digits st idx url =
      .ok { st with
            fs := fun p => if p = out_dir ++ "/" ++ file_name_for_index idx digits
                           then some body else st.fs p,
            index_lines := st.index_lines ++ [file_name_for_index idx digits ++ "\t" ++ url],
            downloaded := st.downloaded + 1,
            requests := st.requests ++ [url],
            delays := st.delays + 1 } := by
  simp [crawl_step, h, hnet, hct, hwf]

theorem crawl_loop_cons (net : String → FetchResult) (write_fails : String → Bool)
    (out_dir : String) (digits : Nat) (idx : Nat) (n : Int) (url : String)
    (ts : List (Nat × Int × String)) (st st1 : LoopState)
    (h : crawl_step net write_fails out_dir digits st idx url = .ok st1) :
    crawl_loop net write_fails out_dir digits ((idx, n, url) :: ts) st =
      crawl_loop net write_fails out_dir digits ts st1 := by
  simp [crawl_loop, h]

theorem crawl_loop_cons_error (net : String → FetchResult) (write_fails : String → Bool)
    (out_dir : String) (digits : Nat) (idx : Nat) (n : Int) (url : String)
    (ts : List (Nat × Int × String)) (st : LoopState) (e : String × LoopState)
    (h : crawl_step net write_fails out_dir digits st idx url = .error e) :
    crawl_loop net write_fails out_dir digits ((idx, n, url) :: ts) st = .error e := by
  simp [crawl_loop, h]

/-- Every branch of the loop body that returns normally either appends
exactly the manifest entry of its target and increments the counter,
or leaves both untouched; the filesystem and the counter move
together with the entry list. -/
theorem crawl_step_ok_cases (net : String → FetchResult) (write_fails : String → Bool)
    (out_dir : String) (digits : Nat) (st : LoopState) (idx : Nat) (url : String)
    (st1 : LoopState) (h : crawl_step net write_fails out_dir digits st idx url = .ok st1) :
    (st1.index_lines = st.index_lines ++ [file_name_for_index idx digits ++ "\t" ++ url] ∧
      st1.downloaded = st.downloaded + 1) ∨
    (st1.index_lines = st.index_lines ∧ st1.downloaded = st.downloaded) := by
  by_cases hp : existsNonempty st.fs (out_dir ++ "/" ++ file_name_for_index idx digits) = true
  · rw [crawl_step_skip net write_fails out_dir digits st idx url hp] at h
    cases h
    exact Or.inl ⟨rfl, rfl⟩
  · rw [Bool.not_eq_true] at hp
    cases hnet : net url with
    | transportError =>
      rw [crawl_step_transport net write_fails out_dir digits st idx url hp hnet] at h
      cases h
      exact Or.inr ⟨rfl, rfl⟩
    | response status content_type body =>
      by_cases hs : status = 200
      · subst hs
        by_cases hct : is_html_response content_type = true
        · by_cases hwf : write_fails (out_dir ++ "/" ++ file_name_for_index idx digits) = true
          · rw [crawl_step_writeError net write_fails out_dir digits st idx url
              content_type body hp hnet hct hwf] at h
            cases h
          · rw [Bool.not_eq_true] at hwf
            rw [crawl_step_save net write_fails out_dir digits st idx url
              content_type body hp hnet hct hwf] at h
            cases h
            exact Or.inl ⟨rfl, rfl⟩
        · rw [Bool.not_eq_true] at hct
          rw [crawl_step_rejected net write_fails out_dir digits st idx url
            content_type body hp hnet hct] at h
          cases h
          exact Or.inr ⟨rfl, rfl⟩
      · rw [crawl_step_badStatus net write_fails out_dir digits st idx url
          status content_type body hp hnet hs] at h
        cases h
        exact Or.inr ⟨rfl, rfl⟩

/-- A loop body that aborts with a write error does so before touching
the entry list, the counter or the filesystem. -/
theorem crawl_step_error_state (net : String → FetchResult) (write_fails : String → Bool)
    (out_dir : String) (digits : Nat) (st : LoopState) (idx : Nat) (url : String)
    (e : String × LoopState)
    (h : crawl_step net write_fails out_dir digits st idx url = .error e) :
    e.2.index_lines = st.index_lines ∧ e.2.downloaded = st.downloaded ∧ e.2.fs = st.fs := by
  by_cases hp : existsNonempty st.fs (out_dir ++ "/" ++ file_name_for_index idx digits) = true
  · rw [crawl_step_skip net write_fails out_dir digits st idx url hp] at h
    cases h
  · rw [Bool.not_eq_true] at hp
    cases hnet : net url with
    | transportError =>
      rw [crawl_step_transport net write_fails out_dir digits st idx url hp hnet] at h
      cases h
    | response status content_type body =>
      by_cases hs : status = 200
      · subst hs
        by_cases hct : is_html_response content_type = true
        · by_cases hwf : write_fails (out_dir ++ "/" ++ file_name_for_index idx digits) = true
          · rw [crawl_step_writeError net write_fails out_dir digits st idx url
              content_type body hp hnet hct hwf] at h
            cases h
            exact ⟨rfl, rfl, rfl⟩
          · rw [Bool.not_eq_true] at hwf
            rw [crawl_step_save net write_fails out_dir digits st idx url
              content_type body hp hnet hct hwf] at h
            cases h
        · rw [Bool.not_eq_true] at hct
          rw [crawl_step_rejected net write_fails out_dir digits st idx url
            content_type body hp hnet hct] at h
          cases h
      · rw [crawl_step_badStatus net write_fails out_dir digits st idx url
          status content_type body hp hnet hs] at h
        cases h

/-- Position bounds of `List.enumFrom` membership. -/
theorem mem_enumFrom_bounds {α : Type} :
    ∀ (l : List α) (k : Nat) (x : Nat × α), x ∈ List.enumFrom k l → k ≤ x.1 ∧ x.1 < k + l.length := by
  intro l
  induction l with
  | nil => intro k x hx; cases hx
  | cons a tl ih =>
    intro k x hx
    rw [List.enumFrom_cons, List.mem_cons] at hx
    rcases hx with hx | hx
    · subst hx; simp
    · have := ih (k + 1) x hx
      simp only [List.length_cons]
      omega

/-- If every target of the remaining list already has a nonzero-size
file, the loop performs no network call and no delay, and appends the
manifest entries of all those targets in order. -/
theorem crawl_loop_all_skip (net : String → FetchResult) (write_fails : String → Bool)
    (out_dir : String) (digits : Nat) :
    ∀ (ts : List (Nat × Int × String)) (st : LoopState),
    (∀ x ∈ ts, existsNonempty st.fs (out_dir ++ "/" ++ file_name_for_index x.1 digits) = true) →
    crawl_loop net write_fails out_dir digits ts st =
      .ok { st with
            index_lines := st.index_lines ++
              ts.map (fun x => file_name_for_index x.1 digits ++ "\t" ++ x.2.2),
            downloaded := st.downloaded + ts.length } := by
  intro ts
  induction ts with
  | nil => intro st _; simp [crawl_loop]
  | cons hd tl ih =>
    intro st h
    obtain ⟨idx, n, url⟩ := hd
    obtain ⟨fs, il, dl, rq, dy⟩ := st
    have hpresent : existsNonempty fs (out_dir ++ "/" ++ file_name_for_index idx digits) = true := by
      have := h (idx, n, url) (List.mem_cons_self _ _)
      simpa using this
    have hskip := crawl_step_skip net write_fails out_dir digits ⟨fs, il, dl, rq, dy⟩ idx url hpresent
    rw [crawl_loop_cons net write_fails out_dir digits idx n url tl _ _ hskip]
    have hrest : ∀ x ∈ tl,
        existsNonempty fs (out_dir ++ "/" ++ file_name_for_index x.1 digits) = true :=
      fun x hx => h x (List.mem_cons_of_mem _ hx)
    rw [ih ⟨fs, il ++ [file_name_for_index idx digits ++ "\t" ++ url], dl + 1, rq, dy⟩ hrest]
    simp [List.append_assoc]
    omega

/-- The loop appends at most one manifest entry per target; if the
counter reaches the full target count, every target appended exactly
its own entry, so the final entry list is the canonical one. -/
theorem crawl_loop_ok_count (net : String → FetchResult) (write_fails : String → Bool)
    (out_dir : String) (digits : Nat) :
    ∀ (ts : List (Nat × Int × String)) (st st1 : LoopState),
    crawl_loop net write_fails out_dir digits ts st = .ok st1 →
      st1.downloaded ≤ st.downloaded + ts.length ∧
      (st1.downloaded = st.downloaded + ts.length →
        st1.index_lines = st.index_lines ++
          ts.map (fun x => file_name_for_index x.1 digits ++ "\t" ++ x.2.2)) := by
  intro ts
  induction ts with
  | nil =>
    intro st st1 h
    cases h
    simp
  | cons hd tl ih =>
    intro st st1 h
    obtain ⟨idx, n, url⟩ := hd
    cases hstep : crawl_step net write_fails out_dir digits st idx url with
    | error e =>
      rw [crawl_loop_cons_error net write_fails out_dir digits idx n url tl st e hstep] at h
      cases h
    | ok st2 =>
      rw [crawl_loop_cons net write_fails out_dir digits idx n url tl st st2 hstep] at h
      have hb := ih st2 st1 h
      rcases crawl_step_ok_cases net write_fails out_dir digits st idx url st2 hstep with
        ⟨hl, hd⟩ | ⟨hl, hd⟩
      · constructor
        · simp only [List.length_cons]; omega
        · intro heq
          have : st1.index_lines = st2.index_lines ++
              tl.map (fun x => file_name_for_index x.1 digits ++ "\t" ++ x.2.2) := by
            apply hb.2; simp only [List.length_cons] at heq; omega
          rw [this, hl, List.append_assoc]
          simp
      · constructor
        · simp only [List.length_cons]; omega
        · intro heq
          exfalso
          simp only [List.length_cons] at heq
          omega

/-- The per-target counter/entry-list invariant, preserved through the
whole loop, whether it completes or aborts. -/
theorem crawl_loop_counter (net : String → FetchResult) (write_fails : String → Bool)
    (out_dir : String) (digits : Nat) :
    ∀ (ts : List (Nat × Int × String)) (st : LoopState),
    st.downloaded = st.index_lines.length →
    (∀ st1, crawl_loop net write_fails out_dir digits ts st = .ok st1 →
      st1.downloaded = st1.index_lines.length) ∧
    (∀ e, crawl_loop net write_fails out_dir digits ts st = .error e →
      e.2.downloaded = e.2.index_lines.length) := by
  intro ts
  induction ts with
  | nil =>
    intro st hinv
    constructor
    · intro st1 h; cases h; exact hinv
    · intro e h; cases h
  | cons hd tl ih =>
    intro st hinv
    obtain ⟨idx, n, url⟩ := hd
    cases hstep : crawl_step net write_fails out_dir digits st idx url with
    | error e0 =>
      have hstate := crawl_step_error_state net write_fails out_dir digits st idx url e0 hstep
      constructor
      · intro st1 h
        rw [crawl_loop_cons_error net write_fails out_dir digits idx n url tl st e0 hstep] at h
        cases h
      · intro e h
        rw [crawl_loop_cons_error net write_fails out_dir digits idx n url tl st e0 hstep] at h
        cases h
        rw [hstate.1, hstate.2.1]
        exact hinv
    | ok st2 =>
      have hinv2 : st2.downloaded = st2.index_lines.length := by
        rcases crawl_step_ok_cases net write_fails out_dir digits st idx url st2 hstep with
          ⟨hl, hd⟩ | ⟨hl, hd⟩ <;> rw [hl, hd] <;> simp [hinv]
      constructor
      · intro st1 h
        rw [crawl_loop_cons net write_fails out_dir digits idx n url tl st st2 hstep] at h
        exact (ih st2 hinv2).1 st1 h
      · intro e h
        rw [crawl_loop_cons net write_fails out_dir digits idx n url tl st st2 hstep] at h
        exact (ih st2 hinv2).2 e h

/-! ## Run-level analysis of `crawl` -/

theorem crawl_eq_of_loop (fs0 : String → Option String) (net : String → FetchResult)
    (write_fails : String → Bool) (config : CrawlerConfig) (st : LoopState)
    (hloop : crawl_loop net write_fails config.out_dir
        (run_width (build_urls config.base_url config.start_page config.end_page).length)
        (List.enumFrom 1 (build_urls config.base_url config.start_page config.end_page))
        ⟨fs0, [], 0, [], 0⟩ = .ok st)
    (hwf : write_fails config.index_path = false) :
    crawl fs0 net write_fails config = .ok
      { fs := fun p => if p = config.index_path
                       then some (String.intercalate "\n" st.index_lines ++ "\n") else st.fs p,
        manifest := String.intercalate "\n" st.index_lines ++ "\n",
        index_lines := st.index_lines,
        downloaded := st.downloaded,
        total := (build_urls config.base_url config.start_page config.end_page).length,
        requests := st.requests,
        delays := st.delays,
        exit_code := if st.downloaded <
            (build_urls config.base_url config.start_page config.end_page).length
          then 2 else 0 } := by
  unfold crawl
  simp only [hloop, hwf, Bool.false_eq_true, if_false]

theorem crawl_ok_inv (fs0 : String → Option String) (net : String → FetchResult)
    (write_fails : String → Bool) (config : CrawlerConfig) (r : CrawlResult)
    (h : crawl fs0 net write_fails config = .ok r) :
    ∃ st, crawl_loop net write_fails config.out_dir
        (run_width (build_urls config.base_url config.start_page config.end_page).length)
        (List.enumFrom 1 (build_urls config.base_url config.start_page config.end_page))
        ⟨fs0, [], 0, [], 0⟩ = .ok st ∧
      write_fails config.index_path = false ∧
      r = { fs := fun p => if p = config.index_path
                           then some (String.intercalate "\n" st.index_lines ++ "\n")
                           else st.fs p,
            manifest := String.intercalate "\n" st.index_lines ++ "\n",
            index_lines := st.index_lines,
            downloaded := st.downloaded,
            total := (build_urls config.base_url config.start_page config.end_page).length,
            requests := st.requests,
            delays := st.delays,
            exit_code := if st.downloaded <
                (build_urls config.base_url config.start_page config.end_page).length
              then 2 else 0 } := by
  cases hloop : crawl_loop net write_fails config.out_dir
      (run_width (build_urls config.base_url config.start_page config.end_page).length)
      (List.enumFrom 1 (build_urls config.base_url config.start_page config.end_page))
      ⟨fs0, [], 0, [], 0⟩ with
  | error e =>
    have herr : crawl fs0 net write_fails config = .error e := by
      unfold crawl
      simp only [hloop]
    rw [herr] at h
    cases h
  | ok st =>
    by_cases hwf : write_fails config.index_path = true
    · have herr : crawl fs0 net write_fails config = .error (config.index_path, st) := by
        unfold crawl
        simp [hloop, hwf]
      rw [herr] at h
      cases h
    · rw [Bool.not_eq_true] at hwf
      rw [crawl_eq_of_loop fs0 net write_fails config st hloop hwf] at h
      cases h
      exact ⟨st, rfl, hwf, rfl⟩

/-! ## The template substitution -/

theorem substN_no_brace (n : Int) : ∀ (l : List Char), '{' ∉ l → substN n l = l := by
  intro l
  induction l with
  | nil => intro; rfl
  | cons c rest ih =>
    intro h
    have hc : c ≠ '{' := fun hx => h (hx ▸ List.mem_cons_self _ _)
    have hr : '{' ∉ rest := fun hx => h (List.mem_cons_of_mem _ hx)
    rw [substN.eq_def]
    split
    · rename_i heq
      injection heq with h1 h2
      exact absurd h1 hc
    · rename_i c1 rest1 heq
      injection heq with h1 h2
      subst h1; subst h2
      rw [ih hr]
    · rename_i heq
      cases heq

theorem formatN_no_brace (base : String) (n : Int) (h : '{' ∉ base.data) :
    formatN base n = base := by
  unfold formatN
  rw [substN_no_brace n base.data h]

theorem build_urls_empty_of_lt (base : String) (s e : Int) (h : e < s) :
    build_urls base s e = [] := by
  unfold build_urls
  rw [Int.toNat_of_nonpos (by omega)]
  rfl

theorem crawl_error_inv (fs0 : String → Option String) (net : String → FetchResult)
    (write_fails : String → Bool) (config : CrawlerConfig) (e : String × LoopState)
    (h : crawl fs0 net write_fails config = .error e) :
    crawl_loop net write_fails config.out_dir
        (run_width (build_urls config.base_url config.start_page config.end_page).length)
        (List.enumFrom 1 (build_urls config.base_url config.start_page config.end_page))
        ⟨fs0, [], 0, [], 0⟩ = .error e ∨
    (∃ st, crawl_loop net write_fails config.out_dir
        (run_width (build_urls config.base_url config.start_page config.end_page).length)
        (List.enumFrom 1 (build_urls config.base_url config.start_page config.end_page))
        ⟨fs0, [], 0, [], 0⟩ = .ok st ∧
      write_fails config.index_path = true ∧ e = (config.index_path, st)) := by
  cases hloop : crawl_loop net write_fails config.out_dir
      (run_width (build_urls config.base_url config.start_page config.end_page).length)
      (List.enumFrom 1 (build_urls config.base_url config.start_page config.end_page))
      ⟨fs0, [], 0, [], 0⟩ with
  | error e0 =>
    have herr : crawl fs0 net write_fails config = .error e0 := by
      unfold crawl
      simp only [hloop]
    rw [herr] at h
    cases h
    exact Or.inl rfl
  | ok st =>
    by_cases hwf : write_fails config.index_path = true
    · have herr : crawl fs0 net write_fails config = .error (config.index_path, st) := by
        unfold crawl
        simp [hloop, hwf]
      rw [herr] at h
      cases h
      exact Or.inr ⟨st, rfl, hwf, rfl⟩
    · rw [Bool.not_eq_true] at hwf
      rw [crawl_eq_of_loop fs0 net write_fails config st hloop hwf] at h
      cases h

/-! ## Decimal representation: `Nat.repr` via `decChars` -/

theorem decChars_of_lt (n : Nat) (h : n < 10) : decChars n = [Nat.digitChar n] := by
  rw [decChars.eq_def]
  simp [h]

theorem decChars_of_ge (n : Nat) (h : ¬ n < 10) :
    decChars n = decChars (n / 10) ++ [Nat.digitChar (n % 10)] := by
  conv_lhs => rw [decChars.eq_def]
  simp [h]

theorem toDigitsCore_eq_decChars :
    ∀ (fuel n : Nat) (ds : List Char), n < fuel →
      Nat.toDigitsCore 10 fuel n ds = decChars n ++ ds := by
  intro fuel
  induction fuel with
  | zero => intro n ds h; omega
  | succ f ih =>
    intro n ds h
    rw [Nat.toDigitsCore]
    by_cases h10 : n < 10
    · have hdiv : n / 10 = 0 := Nat.div_eq_of_lt h10
      have hmod : n % 10 = n := Nat.mod_eq_of_lt h10
      rw [decChars_of_lt n h10]
      simp [hdiv, hmod]
    · have hdiv : ¬ n / 10 = 0 := by
        intro h0
        have := Nat.div_eq_of_lt (by omega : n < 10)
        omega
      rw [decChars_of_ge n h10]
      have hrec : n / 10 < f := by
        have h1 : 0 < n := by omega
        have := Nat.div_lt_self h1 (by omega : 1 < 10)
        omega
      simp only [hdiv, if_false]
      rw [ih (n / 10) (Nat.digitChar (n % 10) :: ds) hrec]
      simp

theorem repr_data_eq_decChars (n : Nat) : (Nat.repr n).data = decChars n := by
  show (Nat.toDigits 10 n).asString.data = decChars n
  unfold Nat.toDigits
  rw [toDigitsCore_eq_decChars (n + 1) n [] (Nat.lt_succ_self n)]
  simp [List.asString]

theorem repr_length_eq_decChars (n : Nat) : (Nat.repr n).length = (decChars n).length := by
  show (Nat.repr n).data.length = (decChars n).length
  rw [repr_data_eq_decChars]

theorem decChars_length_pos (n : Nat) : 0 < (decChars n).length := by
  by_cases h : n < 10
  · rw [decChars_of_lt n h]; simp
  · rw [decChars_of_ge n h]; simp

theorem decChars_length_mono : ∀ j i : Nat, i ≤ j → (decChars i).length ≤ (decChars j).length := by
  intro j
  induction j using Nat.strong_induction_on with
  | _ j ih =>
    intro i hij
    by_cases hj : j < 10
    · rw [decChars_of_lt i (by omega), decChars_of_lt j hj]
      simp
    · by_cases hi : i < 10
      · rw [decChars_of_lt i hi, decChars_of_ge j hj]
        have := decChars_length_pos (j / 10)
        simp only [List.length_singleton, List.length_append]
        omega
      · rw [decChars_of_ge i hi, decChars_of_ge j hj]
        have hd : i / 10 ≤ j / 10 := Nat.div_le_div_right hij
        have hrec : j / 10 < j := Nat.div_lt_self (by omega) (by omega)
        have := ih (j / 10) hrec (i / 10) hd
        simp only [List.length_append, List.length_singleton]
        omega

theorem decChars_digitsOnly : ∀ n : Nat, DigitsOnly (decChars n) := by
  intro n
  induction n using Nat.strong_induction_on with
  | _ n ih =>
    by_cases h : n < 10
    · rw [decChars_of_lt n h]
      intro c hc
      rw [List.mem_singleton] at hc
      exact ⟨n, h, hc⟩
    · rw [decChars_of_ge n h]
      intro c hc
      rw [List.mem_append] at hc
      rcases hc with hc | hc
      · exact ih (n / 10) (Nat.div_lt_self (by omega) (by omega)) c hc
      · rw [List.mem_singleton] at hc
        exact ⟨n % 10, Nat.mod_lt _ (by omega), hc⟩

theorem ofDecFrom_cons (a : Nat) (c : Char) (l : List Char) :
    ofDecFrom a (c :: l) = ofDecFrom (a * 10 + (c.toNat - 48)) l := rfl

theorem ofDecFrom_append (a : Nat) (l1 l2 : List Char) :
    ofDecFrom a (l1 ++ l2) = ofDecFrom (ofDecFrom a l1) l2 := by
  unfold ofDecFrom
  rw [List.foldl_append]

theorem ofDecFrom_shift : ∀ (l : List Char) (a : Nat),
    ofDecFrom a l = a * 10 ^ l.length + ofDecFrom 0 l := by
  intro l
  induction l with
  | nil => intro a; simp [ofDecFrom]
  | cons c t ih =>
    intro a
    rw [ofDecFrom_cons, ofDecFrom_cons]
    rw [ih (a * 10 + (c.toNat - 48)), ih (0 * 10 + (c.toNat - 48))]
    simp only [List.length_cons, Nat.zero_mul, Nat.zero_add]
    ring

theorem ofDec_append_digit (l : List Char) (c : Char) :
    ofDec (l ++ [c]) = ofDec l * 10 + (c.toNat - 48) := by
  unfold ofDec
  rw [ofDecFrom_append]
  rfl

theorem digitChar_toNat : ∀ d : Nat, d < 10 → (Nat.digitChar d).toNat = 48 + d := by decide

theorem digitChar_lt_digitChar :
    ∀ a : Nat, a < 10 → ∀ b : Nat, b < 10 → a < b → Nat.digitChar a < Nat.digitChar b := by
  decide

theorem ofDec_decChars : ∀ n : Nat, ofDec (decChars n) = n := by
  intro n
  induction n using Nat.strong_induction_on with
  | _ n ih =>
    by_cases h : n < 10
    · rw [decChars_of_lt n h]
      show ofDecFrom (0 * 10 + ((Nat.digitChar n).toNat - 48)) [] = n
      rw [digitChar_toNat n h]
      show 0 * 10 + (48 + n - 48) = n
      omega
    · rw [decChars_of_ge n h, ofDec_append_digit,
        ih (n / 10) (Nat.div_lt_self (by omega) (by omega)),
        digitChar_toNat (n % 10) (Nat.mod_lt _ (by omega))]
      omega

theorem ofDec_lt_pow : ∀ l : List Char, DigitsOnly l → ofDec l < 10 ^ l.length := by
  intro l
  induction l with
  | nil => intro; simp [ofDec, ofDecFrom]
  | cons c t ih =>
    intro h
    obtain ⟨d, hd, hc⟩ := h c (List.mem_cons_self _ _)
    have ht : DigitsOnly t := fun x hx => h x (List.mem_cons_of_mem _ hx)
    have hv := ih ht
    show ofDecFrom 0 (c :: t) < 10 ^ (c :: t).length
    rw [ofDecFrom_cons, ofDecFrom_shift]
    have hdval : c.toNat - 48 = d := by
      rw [hc, digitChar_toNat d hd]
      omega
    have h9 : c.toNat - 48 ≤ 9 := by omega
    have hvt : ofDecFrom 0 t < 10 ^ t.length := hv
    have step1 : (0 * 10 + (c.toNat - 48)) * 10 ^ t.length + ofDecFrom 0 t
        < (c.toNat - 48 + 1) * 10 ^ t.length := by
      rw [Nat.succ_mul]
      simp only [Nat.zero_mul, Nat.zero_add]
      omega
    have step2 : (c.toNat - 48 + 1) * 10 ^ t.length ≤ 10 * 10 ^ t.length :=
      Nat.mul_le_mul_right _ (by omega)
    have hpow : 10 * 10 ^ t.length = 10 ^ (c :: t).length := by
      rw [List.length_cons, Nat.pow_succ]
      ring
    omega

theorem ofDec_replicate_zero :
    ∀ (k : Nat) (l : List Char), ofDec (List.replicate k '0' ++ l) = ofDec l := by
  intro k
  induction k with
  | zero => intro l; rfl
  | succ k ih =>
    intro l
    rw [List.replicate_succ, List.cons_append]
    show ofDecFrom (0 * 10 + ('0'.toNat - 48)) (List.replicate k '0' ++ l) = ofDec l
    have h0 : 0 * 10 + ('0'.toNat - 48) = 0 := by decide
    rw [h0]
    exact ih l

theorem lex_of_value_lt :
    ∀ l1 l2 : List Char, l1.length = l2.length → DigitsOnly l1 → DigitsOnly l2 →
      ofDec l1 < ofDec l2 → List.Lex (fun a b : Char => a < b) l1 l2 := by
  intro l1
  induction l1 with
  | nil =>
    intro l2 hlen _ _ hv
    cases l2 with
    | nil => simp [ofDec, ofDecFrom] at hv
    | cons c t => simp at hlen
  | cons c1 t1 ih =>
    intro l2 hlen h1 h2 hv
    cases l2 with
    | nil => simp at hlen
    | cons c2 t2 =>
      simp only [List.length_cons] at hlen
      have hlen' : t1.length = t2.length := by omega
      obtain ⟨d1, hd1, hc1⟩ := h1 c1 (List.mem_cons_self _ _)
      obtain ⟨d2, hd2, hc2⟩ := h2 c2 (List.mem_cons_self _ _)
      have ht1 : DigitsOnly t1 := fun x hx => h1 x (List.mem_cons_of_mem _ hx)
      have ht2 : DigitsOnly t2 := fun x hx => h2 x (List.mem_cons_of_mem _ hx)
      have hv1 : ofDec (c1 :: t1) = d1 * 10 ^ t1.length + ofDec t1 := by
        show ofDecFrom 0 (c1 :: t1) = _
        rw [ofDecFrom_cons, ofDecFrom_shift]
        have : 0 * 10 + (c1.toNat - 48) = d1 := by
          rw [hc1, digitChar_toNat d1 hd1]
          omega
        rw [this]
        rfl
      have hv2 : ofDec (c2 :: t2) = d2 * 10 ^ t2.length + ofDec t2 := by
        show ofDecFrom 0 (c2 :: t2) = _
        rw [ofDecFrom_cons, ofDecFrom_shift]
        have : 0 * 10 + (c2.toNat - 48) = d2 := by
          rw [hc2, digitChar_toNat d2 hd2]
          omega
        rw [this]
        rfl
      have hb1 := ofDec_lt_pow t1 ht1
      have hb2 := ofDec_lt_pow t2 ht2
      rcases Nat.lt_trichotomy d1 d2 with hlt | heq | hgt
      · refine List.Lex.rel ?_
        rw [hc1, hc2]
        exact digitChar_lt_digitChar d1 hd1 d2 hd2 hlt
      · have hc : c1 = c2 := by rw [hc1, hc2, heq]
        subst hc
        refine List.Lex.cons ?_
        apply ih t2 hlen' ht1 ht2
        rw [hv1, hv2, heq, hlen'] at hv
        exact Nat.lt_of_add_lt_add_left hv
      · exfalso
        have hP : (10 : Nat) ^ t2.length = 10 ^ t1.length := by rw [hlen']
        have hge : ofDec (c2 :: t2) < ofDec (c1 :: t1) := by
          rw [hv1, hv2]
          calc d2 * 10 ^ t2.length + ofDec t2
              < d2 * 10 ^ t2.length + 10 ^ t2.length := by omega
            _ = (d2 + 1) * 10 ^ t2.length := by ring
            _ ≤ d1 * 10 ^ t2.length := Nat.mul_le_mul_right _ (by omega)
            _ = d1 * 10 ^ t1.length := by rw [hP]
            _ ≤ d1 * 10 ^ t1.length + ofDec t1 := Nat.le_add_right _ _
        omega

theorem lex_append_right_of_length_eq :
    ∀ {l1 l2 : List Char}, List.Lex (fun a b : Char => a < b) l1 l2 →
      l1.length = l2.length → ∀ s : List Char,
      List.Lex (fun a b : Char => a < b) (l1 ++ s) (l2 ++ s) := by
  intro l1 l2 h
  induction h with
  | nil => intro hlen; simp at hlen
  | cons h ih =>
    intro hlen s
    simp only [List.cons_append]
    exact List.Lex.cons (ih (by simpa using hlen) s)
  | rel h =>
    intro hlen s
    simp only [List.cons_append]
    exact List.Lex.rel h

theorem padLeftZeros_data (width : Nat) (s : String) :
    (padLeftZeros width s).data = List.replicate (width - s.length) '0' ++ s.data := rfl

theorem padLeftZeros_length (width : Nat) (s : String) (h : s.length ≤ width) :
    (padLeftZeros width s).length = width := by
  show (padLeftZeros width s).data.length = width
  rw [padLeftZeros_data]
  simp only [List.length_append, List.length_replicate]
  have : s.data.length = s.length := rfl
  omega

theorem padLeftZeros_digitsOnly (width : Nat) (n : Nat) :
    DigitsOnly (padLeftZeros width (Nat.repr n)).data := by
  rw [padLeftZeros_data, repr_data_eq_decChars]
  intro c hc
  rw [List.mem_append] at hc
  rcases hc with hc | hc
  · rw [List.eq_of_mem_replicate hc]
    exact ⟨0, by omega, rfl⟩
  · exact decChars_digitsOnly n c hc

theorem ofDec_padLeftZeros (width : Nat) (n : Nat) :
    ofDec (padLeftZeros width (Nat.repr n)).data = n := by
  rw [padLeftZeros_data, repr_data_eq_decChars, ofDec_replicate_zero, ofDec_decChars]

theorem repr_length_mono (i j : Nat) (h : i ≤ j) :
    (Nat.repr i).length ≤ (Nat.repr j).length := by
  rw [repr_length_eq_decChars, repr_length_eq_decChars]
  exact decChars_length_mono j i h

theorem file_name_lt (digits i j : Nat) (hij : i < j)
    (hj : (Nat.repr j).length ≤ digits) :
    file_name_for_index i digits < file_name_for_index j digits := by
  have hi : (Nat.repr i).length ≤ digits :=
    le_trans (repr_length_mono i j (le_of_lt hij)) hj
  rw [String.lt_iff_toList_lt]
  show (padLeftZeros digits (Nat.repr i) ++ ".html").data <
    (padLeftZeros digits (Nat.repr j) ++ ".html").data
  rw [String.data_append, String.data_append]
  show List.Lex (fun a b : Char => a < b)
    ((padLeftZeros digits (Nat.repr i)).data ++ ".html".data)
    ((padLeftZeros digits (Nat.repr j)).data ++ ".html".data)
  have hleni := padLeftZeros_length digits (Nat.repr i) hi
  have hlenj := padLeftZeros_length digits (Nat.repr j) hj
  have hlen : (padLeftZeros digits (Nat.repr i)).data.length =
      (padLeftZeros digits (Nat.repr j)).data.length := by
    show (padLeftZeros digits (Nat.repr i)).length =
      (padLeftZeros digits (Nat.repr j)).length
    rw [hleni, hlenj]
  apply lex_append_right_of_length_eq ?_ hlen
  apply lex_of_value_lt _ _ hlen (padLeftZeros_digitsOnly digits i)
    (padLeftZeros_digitsOnly digits j)
  rw [ofDec_padLeftZeros, ofDec_padLeftZeros]
  exact hij

/-! ## The claims -/

/-- C1: a target whose destination file already exists with nonzero
size takes the skip branch: the loop performs no network request and
no delay for it, appends its `(filename, url)` manifest entry,
increments the success counter, and continues with the remaining
targets from that state; concretely, in a five-target run in which the
files of indices 1-3 exist with nonzero size, only the URLs of targets
4 and 5 are requested and the final manifest still contains one entry
per target, in sequence order. -/
theorem C1_skip_present_no_fetch :
    (∀ (net : String → FetchResult) (write_fails : String → Bool) (out_dir : String)
        (digits : Nat) (st : LoopState) (idx : Nat) (n : Int) (url : String)
        (ts : List (Nat × Int × String)),
      existsNonempty st.fs (out_dir ++ "/" ++ file_name_for_index idx digits) = true →
      crawl_loop net write_fails out_dir digits ((idx, n, url) :: ts) st =
        crawl_loop net write_fails out_dir digits ts
          { st with
            index_lines := st.index_lines ++ [file_name_for_index idx digits ++ "\t" ++ url],
            downloaded := st.downloaded + 1 }) ∧
    runView (crawl fsWith123 netAllHtml neverFails cfg5) =
      some (["u/4", "u/5"],
            ["0001.html\tu/1", "0002.html\tu/2", "0003.html\tu/3", "0004.html\tu/4",
             "0005.html\tu/5"],
            "0001.html\tu/1\n0002.html\tu/2\n0003.html\tu/3\n0004.html\tu/4\n0005.html\tu/5\n",
            5, 5, 0, 2) := by
  constructor
  · intro net write_fails out_dir digits st idx n url ts h
    exact crawl_loop_cons net write_fails out_dir digits idx n url ts st _
      (crawl_step_skip net write_fails out_dir digits st idx url h)
  · rfl

/-- Witness for C1: the skip branch taken at a concrete state. -/
theorem C1_skip_present_no_fetch_witness :
    crawl_loop netAllHtml neverFails "out" 4 [(1, (1 : Int), "u/1")] ⟨fsWith123, [], 0, [], 0⟩ =
      crawl_loop netAllHtml neverFails "out" 4 [] ⟨fsWith123, ["0001.html\tu/1"], 1, [], 0⟩ :=
  C1_skip_present_no_fetch.1 netAllHtml neverFails "out" 4 ⟨fsWith123, [], 0, [], 0⟩ 1 1 "u/1" []
    (by decide)

/-- C4, counterexample: the sequencer never fails. With a template
containing no placeholder it silently produces a sequence whose URLs
all equal the template verbatim, and with `start_page > end_page` it
silently produces the empty sequence; no `ConfigError` (or any other
failure channel) exists in `build_urls`. -/
theorem C4_counterexample :
    build_urls "https://site.com/index.html" 1 2 =
      [(1, "https://site.com/index.html"), (2, "https://site.com/index.html")] ∧
    build_urls "https://site.com/p.{n}/index.html" 5 3 = [] := by
  constructor
  · rfl
  · rfl

/-- C4, amended: the sequencer performs no validation and cannot fail:
when `start_page > end_page` it returns the empty sequence, and when
the template contains no placeholder (no `{` at all) it returns one
pair per page number whose URL is the template unchanged. -/
theorem C4_amended_no_validation :
    (∀ (base : String) (s e : Int), e < s → build_urls base s e = []) ∧
    (∀ (base : String) (s e : Int), '{' ∉ base.data →
      build_urls base s e =
        (List.range (e + 1 - s).toNat).map (fun k => (s + k, base))) := by
  constructor
  · intro base s e h
    exact build_urls_empty_of_lt base s e h
  · intro base s e h
    unfold build_urls
    apply List.map_congr_left
    intro k _
    rw [formatN_no_brace base _ h]

/-- Witness for C4's amended statement at concrete inputs. -/
theorem C4_amended_no_validation_witness :
    build_urls "https://site.com/index.html" 3 1 = [] ∧
    build_urls "https://site.com/index.html" 1 2 =
      (List.range ((2 : Int) + 1 - 1).toNat).map
        (fun k => ((1 : Int) + k, "https://site.com/index.html")) :=
  ⟨C4_amended_no_validation.1 "https://site.com/index.html" 3 1 (by decide),
   C4_amended_no_validation.2 "https://site.com/index.html" 1 2 (by decide)⟩

/-- C5: the content gate is a pure function of the declared content
type: an absent header is rejected; the comparison is
case-insensitive (only the case-folded declared type matters); it
accepts exactly when the declared type indicates HTML, indicates
XHTML, or begins with the generic "text" category; and a 200 response
declaring `application/pdf` is rejected by the loop, which writes no
file and appends no manifest entry for that target. -/
theorem C5_content_gate :
    is_html_response none = false ∧
    (∀ s t : String, pyLower s = pyLower t →
      is_html_response (some s) = is_html_response (some t)) ∧
    (∀ s : String, is_html_response (some s) = specTextLike s) ∧
    (∀ (net : String → FetchResult) (write_fails : String → Bool) (out_dir : String)
        (digits : Nat) (st : LoopState) (idx : Nat) (n : Int) (url : String)
        (ts : List (Nat × Int × String)) (body : String),
      existsNonempty st.fs (out_dir ++ "/" ++ file_name_for_index idx digits) = false →
      net url = .response 200 (some "application/pdf") body →
      crawl_loop net write_fails out_dir digits ((idx, n, url) :: ts) st =
        crawl_loop net write_fails out_dir digits ts (reqLogged st url)) := by
  refine ⟨rfl, ?_, fun s => rfl, ?_⟩
  · intro s t h
    simp only [is_html_response, Option.getD_some]
    rw [h]
  · intro net write_fails out_dir digits st idx n url ts body hnp hnet
    exact crawl_loop_cons net write_fails out_dir digits idx n url ts st _
      (crawl_step_rejected net write_fails out_dir digits st idx url
        (some "application/pdf") body hnp hnet (by decide))

/-- Witness for C5: case-insensitivity and the pdf rejection at
concrete inputs. -/
theorem C5_content_gate_witness :
    is_html_response (some "TEXT/HTML; charset=utf-8") =
      is_html_response (some "text/html; charset=utf-8") ∧
    crawl_loop netPdf neverFails "out" 4 [(1, (1 : Int), "u/1")] ⟨emptyFs, [], 0, [], 0⟩ =
      crawl_loop netPdf neverFails "out" 4 [] (reqLogged ⟨emptyFs, [], 0, [], 0⟩ "u/1") :=
  ⟨C5_content_gate.2.1 "TEXT/HTML; charset=utf-8" "text/html; charset=utf-8" (by decide),
   C5_content_gate.2.2.2 netPdf neverFails "out" 4 ⟨emptyFs, [], 0, [], 0⟩ 1 1 "u/1" [] "P"
     (by decide) rfl⟩

/-- C6: each of the three per-target failure outcomes — transport
failure, received status ≠ 200, and a 200 response rejected by the
content gate — leaves the filesystem, the manifest entries and the
success counter unchanged (only the attempted URL is logged), and the
loop continues with the remaining targets instead of aborting or
retrying. -/
theorem C6_per_target_failures :
    ∀ (net : String → FetchResult) (write_fails : String → Bool) (out_dir : String)
      (digits : Nat) (st : LoopState) (idx : Nat) (n : Int) (url : String)
      (ts : List (Nat × Int × String)),
    existsNonempty st.fs (out_dir ++ "/" ++ file_name_for_index idx digits) = false →
    ((reqLogged st url).fs = st.fs ∧ (reqLogged st url).index_lines = st.index_lines ∧
      (reqLogged st url).downloaded = st.downloaded ∧
      (reqLogged st url).delays = st.delays) ∧
    (net url = .transportError →
      crawl_loop net write_fails out_dir digits ((idx, n, url) :: ts) st =
        crawl_loop net write_fails out_dir digits ts (reqLogged st url)) ∧
    (∀ (status : Nat) (content_type : Option String) (body : String),
      net url = .response status content_type body → status ≠ 200 →
      crawl_loop net write_fails out_dir digits ((idx, n, url) :: ts) st =
        crawl_loop net write_fails out_dir digits ts (reqLogged st url)) ∧
    (∀ (content_type : Option String) (body : String),
      net url = .response 200 content_type body → is_html_response content_type = false →
      crawl_loop net write_fails out_dir digits ((idx, n, url) :: ts) st =
        crawl_loop net write_fails out_dir digits ts (reqLogged st url)) := by
  intro net write_fails out_dir digits st idx n url ts hnp
  refine ⟨⟨rfl, rfl, rfl, rfl⟩, ?_, ?_, ?_⟩
  · intro hnet
    exact crawl_loop_cons net write_fails out_dir digits idx n url ts st _
      (crawl_step_transport net write_fails out_dir digits st idx url hnp hnet)
  · intro status content_type body hnet hs
    exact crawl_loop_cons net write_fails out_dir digits idx n url ts st _
      (crawl_step_badStatus net write_fails out_dir digits st idx url status content_type
        body hnp hnet hs)
  · intro content_type body hnet hct
    exact crawl_loop_cons net write_fails out_dir digits idx n url ts st _
      (crawl_step_rejected net write_fails out_dir digits st idx url content_type body
        hnp hnet hct)

/-- Witness for C6: the transport-failure outcome at a concrete
state. -/
theorem C6_per_target_failures_witness :
    crawl_loop netDown neverFails "out" 4 [(1, (1 : Int), "u/1")] ⟨emptyFs, [], 0, [], 0⟩ =
      crawl_loop netDown neverFails "out" 4 [] (reqLogged ⟨emptyFs, [], 0, [], 0⟩ "u/1") :=
  (C6_per_target_failures netDown neverFails "out" 4 ⟨emptyFs, [], 0, [], 0⟩ 1 1 "u/1" []
    (by decide)).2.1 rfl

/-- C7, counterexample: with two targets and a write error on the
first page's file, the run aborts immediately: the second target is
never requested and the final manifest is never written (the claim
asserted the run continues and still writes the manifest). -/
theorem C7_counterexample :
    abortView (crawl emptyFs netAllHtml failsFirstFile cfg2) =
      some ("out/0001.html", ["u/1"], []) ∧
    runView (crawl emptyFs netAllHtml failsFirstFile cfg2) = none := by
  constructor
  · rfl
  · rfl

/-- C7, amended: an uncaught write error is fatal for the whole run,
not only for the single file operation: a failing page write aborts
the loop with no manifest entry for that target (an entry is appended
only after a confirmed write), with no subsequent target processed and
no final manifest written; a failing final-manifest write equally
aborts the run. -/
theorem C7_amended_write_error_aborts :
    (∀ (net : String → FetchResult) (write_fails : String → Bool) (out_dir : String)
        (digits : Nat) (st : LoopState) (idx : Nat) (n : Int) (url : String)
        (ts : List (Nat × Int × String)) (content_type : Option String) (body : String),
      existsNonempty st.fs (out_dir ++ "/" ++ file_name_for_index idx digits) = false →
      net url = .response 200 content_type body →
      is_html_response content_type = true →
      write_fails (out_dir ++ "/" ++ file_name_for_index idx digits) = true →
      crawl_loop net write_fails out_dir digits ((idx, n, url) :: ts) st =
        .error (out_dir ++ "/" ++ file_name_for_index idx digits, reqLogged st url)) ∧
    (∀ (fs0 : String → Option String) (net : String → FetchResult)
        (write_fails : String → Bool) (config : CrawlerConfig) (st : LoopState),
      crawl_loop net write_fails config.out_dir
          (run_width (build_urls config.base_url config.start_page config.end_page).length)
          (List.enumFrom 1 (build_urls config.base_url config.start_page config.end_page))
          ⟨fs0, [], 0, [], 0⟩ = .ok st →
      write_fails config.index_path = true →
      crawl fs0 net write_fails config = .error (config.index_path, st)) := by
  constructor
  · intro net write_fails out_dir digits st idx n url ts content_type body hnp hnet hct hwf
    exact crawl_loop_cons_error net write_fails out_dir digits idx n url ts st _
      (crawl_step_writeError net write_fails out_dir digits st idx url content_type body
        hnp hnet hct hwf)
  · intro fs0 net write_fails config st hloop hwf
    unfold crawl
    simp [hloop, hwf]

/-- Witness for C7's amended statement: the concrete aborted run. -/
theorem C7_amended_write_error_aborts_witness :
    crawl_loop netAllHtml failsFirstFile "out" 4 [(1, (1 : Int), "u/1")]
        ⟨emptyFs, [], 0, [], 0⟩ =
      .error ("out/0001.html", reqLogged ⟨emptyFs, [], 0, [], 0⟩ "u/1") :=
  C7_amended_write_error_aborts.1 netAllHtml failsFirstFile "out" 4 ⟨emptyFs, [], 0, [], 0⟩
    1 1 "u/1" [] (some "text/html") "B" (by decide) rfl (by decide) (by decide)

/-- C8: a completed run reports `downloaded` of `total` and signals a
distinguishable non-zero completion status exactly when
`downloaded < total`, after writing the manifest either way; in the
concrete five-target run with two non-200 responses the summary is
`downloaded=3, total=5` with exit status 2, and the fully successful
run reports 5 of 5 with the normal status 0. -/
theorem C8_summary_and_exit_status :
    (∀ (fs0 : String → Option String) (net : String → FetchResult)
        (write_fails : String → Bool) (config : CrawlerConfig) (r : CrawlResult),
      crawl fs0 net write_fails config = .ok r →
      (r.exit_code = if r.downloaded < r.total then 2 else 0) ∧
      r.fs config.index_path = some r.manifest) ∧
    runView (crawl emptyFs netTwo404 neverFails cfg5) =
      some (["u/1", "u/2", "u/3", "u/4", "u/5"],
            ["0001.html\tu/1", "0003.html\tu/3", "0005.html\tu/5"],
            "0001.html\tu/1\n0003.html\tu/3\n0005.html\tu/5\n", 3, 5, 2, 3) ∧
    runView (crawl emptyFs netAllHtml neverFails cfg5) =
      some (["u/1", "u/2", "u/3", "u/4", "u/5"],
            ["0001.html\tu/1", "0002.html\tu/2", "0003.html\tu/3", "0004.html\tu/4",
             "0005.html\tu/5"],
            "0001.html\tu/1\n0002.html\tu/2\n0003.html\tu/3\n0004.html\tu/4\n0005.html\tu/5\n",
            5, 5, 0, 5) := by
  refine ⟨?_, rfl, rfl⟩
  intro fs0 net write_fails config r h
  obtain ⟨st, _, _, hr⟩ := crawl_ok_inv fs0 net write_fails config r h
  subst hr
  exact ⟨rfl, by simp⟩

/-- Witness for C8: the general clause applied to the concrete
partially failed run. -/
theorem C8_summary_and_exit_status_witness :
    ∃ r, crawl emptyFs netTwo404 neverFails cfg5 = .ok r ∧
      (r.exit_code = if r.downloaded < r.total then 2 else 0) ∧
      r.fs cfg5.index_path = some r.manifest :=
  ⟨_, rfl, C8_summary_and_exit_status.1 emptyFs netTwo404 neverFails cfg5 _ rfl⟩

/-- C9: the success counter always equals the number of accumulated
manifest entries: at the end of a completed run the reported
`downloaded` equals the number of manifest lines, and even a run
aborted by a write error carries equal counter and entry list at the
abort point. -/
theorem C9_counter_equals_entries :
    ∀ (fs0 : String → Option String) (net : String → FetchResult)
      (write_fails : String → Bool) (config : CrawlerConfig),
    (∀ r, crawl fs0 net write_fails config = .ok r →
      r.downloaded = r.index_lines.length) ∧
    (∀ e, crawl fs0 net write_fails config = .error e →
      e.2.downloaded = e.2.index_lines.length) := by
  intro fs0 net write_fails config
  constructor
  · intro r h
    obtain ⟨st, hloop, _, hr⟩ := crawl_ok_inv fs0 net write_fails config r h
    subst hr
    exact (crawl_loop_counter net write_fails config.out_dir
      (run_width (build_urls config.base_url config.start_page config.end_page).length)
      (List.enumFrom 1 (build_urls config.base_url config.start_page config.end_page))
      ⟨fs0, [], 0, [], 0⟩ rfl).1 st hloop
  · intro e h
    rcases crawl_error_inv fs0 net write_fails config e h with hloop | ⟨st, hloop, _, he⟩
    · exact (crawl_loop_counter net write_fails config.out_dir
        (run_width (build_urls config.base_url config.start_page config.end_page).length)
        (List.enumFrom 1 (build_urls config.base_url config.start_page config.end_page))
        ⟨fs0, [], 0, [], 0⟩ rfl).2 e hloop
    · subst he
      exact (crawl_loop_counter net write_fails config.out_dir
        (run_width (build_urls config.base_url config.start_page config.end_page).length)
        (List.enumFrom 1 (build_urls config.base_url config.start_page config.end_page))
        ⟨fs0, [], 0, [], 0⟩ rfl).1 st hloop

/-- Witness for C9: the invariant at the end of a concrete partially
failed run. -/
theorem C9_counter_equals_entries_witness :
    ∃ r, crawl emptyFs netTwo404 neverFails cfg5 = .ok r ∧
      r.downloaded = r.index_lines.length :=
  ⟨_, rfl, (C9_counter_equals_entries emptyFs netTwo404 neverFails cfg5).1 _ rfl⟩

/-- C10: a run over an empty target sequence (`start_page > end_page`)
completes with the normal success status and still writes the
manifest, whose content is a single newline character: `downloaded =
total = 0`, exit status 0, no network requests, and the manifest file
holds exactly `"\n"`. -/
theorem C10_empty_range_run (fs0 : String → Option String) (net : String → FetchResult)
    (write_fails : String → Bool) (config : CrawlerConfig)
    (hrange : config.end_page < config.start_page)
    (hwf : write_fails config.index_path = false) :
    ∃ r, crawl fs0 net write_fails config = .ok r ∧ r.total = 0 ∧ r.downloaded = 0 ∧
      r.exit_code = 0 ∧ r.manifest = "\n" ∧ r.requests = [] ∧
      r.fs config.index_path = some "\n" := by
  have htargets : build_urls config.base_url config.start_page config.end_page = [] :=
    build_urls_empty_of_lt config.base_url config.start_page config.end_page hrange
  have hloop : crawl_loop net write_fails config.out_dir
      (run_width (build_urls config.base_url config.start_page config.end_page).length)
      (List.enumFrom 1 (build_urls config.base_url config.start_page config.end_page))
      ⟨fs0, [], 0, [], 0⟩ = .ok ⟨fs0, [], 0, [], 0⟩ := by
    rw [htargets]
    rfl
  refine ⟨_, crawl_eq_of_loop fs0 net write_fails config ⟨fs0, [], 0, [], 0⟩ hloop hwf,
    ?_, rfl, ?_, rfl, rfl, ?_⟩
  · simp [htargets]
  · simp [htargets]
  · show (if config.index_path = config.index_path
          then some (String.intercalate "\n" ([] : List String) ++ "\n")
          else fs0 config.index_path) = some "\n"
    rw [if_pos rfl]
    rfl

/-- Witness for C10: the concrete empty-range run. -/
theorem C10_empty_range_run_witness :
    ∃ r, crawl emptyFs netAllHtml neverFails cfgEmpty = .ok r ∧ r.total = 0 ∧
      r.downloaded = 0 ∧ r.exit_code = 0 ∧ r.manifest = "\n" ∧ r.requests = [] ∧
      r.fs cfgEmpty.index_path = some "\n" :=
  C10_empty_range_run emptyFs netAllHtml neverFails cfgEmpty (by decide) rfl

/-- C2: rerunning `crawl` against the output directory produced by a
fully successful first run (all produced files present, unchanged and
of nonzero size) issues no network request and applies no delay — every
target resolves through the existing-file skip branch — and writes a
manifest identical to the first run's, with the same entry list. -/
theorem C2_second_run_idempotent (fs0 : String → Option String) (net : String → FetchResult)
    (write_fails : String → Bool) (config : CrawlerConfig) (r : CrawlResult)
    (h1 : crawl fs0 net write_fails config = .ok r)
    (h2 : r.downloaded = r.total)
    (h3 : ∀ idx, 1 ≤ idx → idx ≤ r.total →
      existsNonempty r.fs (out_path_for config idx) = true) :
    ∃ r2, crawl r.fs net write_fails config = .ok r2 ∧
      r2.requests = [] ∧ r2.delays = 0 ∧
      r2.manifest = r.manifest ∧ r2.index_lines = r.index_lines := by
  obtain ⟨st, hloop, hwf, hr⟩ := crawl_ok_inv fs0 net write_fails config r h1
  have hdl : r.downloaded = st.downloaded := by rw [hr]
  have htot : r.total =
      (build_urls config.base_url config.start_page config.end_page).length := by rw [hr]
  have hlines : r.index_lines = st.index_lines := by rw [hr]
  have hman : r.manifest = String.intercalate "\n" st.index_lines ++ "\n" := by rw [hr]
  have hcount := crawl_loop_ok_count net write_fails config.out_dir
    (run_width (build_urls config.base_url config.start_page config.end_page).length)
    (List.enumFrom 1 (build_urls config.base_url config.start_page config.end_page))
    ⟨fs0, [], 0, [], 0⟩ st hloop
  have hfull : st.downloaded = 0 +
      (List.enumFrom 1 (build_urls config.base_url config.start_page config.end_page)).length := by
    rw [List.enumFrom_length]
    have := h2
    rw [hdl, htot] at this
    omega
  have hcanon : st.index_lines =
      (List.enumFrom 1 (build_urls config.base_url config.start_page config.end_page)).map
        (fun x => file_name_for_index x.1
          (run_width (build_urls config.base_url config.start_page config.end_page).length)
            ++ "\t" ++ x.2.2) := by
    have := hcount.2 hfull
    simpa using this
  have hskip : ∀ x ∈ List.enumFrom 1 (build_urls config.base_url config.start_page
      config.end_page),
      existsNonempty (⟨r.fs, [], 0, [], 0⟩ : LoopState).fs
        (config.out_dir ++ "/" ++ file_name_for_index x.1
          (run_width (build_urls config.base_url config.start_page config.end_page).length))
        = true := by
    intro x hx
    have hb := mem_enumFrom_bounds
      (build_urls config.base_url config.start_page config.end_page) 1 x hx
    exact h3 x.1 hb.1 (by rw [htot]; omega)
  have hloop2 := crawl_loop_all_skip net write_fails config.out_dir
    (run_width (build_urls config.base_url config.start_page config.end_page).length)
    (List.enumFrom 1 (build_urls config.base_url config.start_page config.end_page))
    ⟨r.fs, [], 0, [], 0⟩ hskip
  refine ⟨_, crawl_eq_of_loop r.fs net write_fails config _ hloop2 hwf, rfl, rfl, ?_, ?_⟩
  · show String.intercalate "\n"
        (([] : List String) ++
          (List.enumFrom 1 (build_urls config.base_url config.start_page
            config.end_page)).map
            (fun x => file_name_for_index x.1
              (run_width (build_urls config.base_url config.start_page config.end_page).length)
                ++ "\t" ++ x.2.2)) ++ "\n" = r.manifest
    rw [hman, hcanon]
    simp
  · show (([] : List String) ++
        (List.enumFrom 1 (build_urls config.base_url config.start_page config.end_page)).map
          (fun x => file_name_for_index x.1
            (run_width (build_urls config.base_url config.start_page config.end_page).length)
              ++ "\t" ++ x.2.2)) = r.index_lines
    rw [hlines, hcanon]
    simp

/-- Witness for C2: second run over the directory produced by the
concrete fully successful five-target run. -/
theorem C2_second_run_idempotent_witness :
    ∃ r2, ∃ r : CrawlResult, crawl emptyFs netAllHtml neverFails cfg5 = .ok r ∧
      crawl r.fs netAllHtml neverFails cfg5 = .ok r2 ∧
      r2.requests = [] ∧ r2.delays = 0 ∧
      r2.manifest = r.manifest ∧ r2.index_lines = r.index_lines := by
  obtain ⟨r2, ha, hb, hc, hd, he⟩ := C2_second_run_idempotent emptyFs netAllHtml neverFails
    cfg5 _ rfl (by decide) (by decide)
  exact ⟨r2, _, rfl, ha, hb, hc, hd, he⟩

/-- C3: in a run with `N` targets, the destination filename of
sequence index `i` is the decimal of `i` zero-padded to width
`max(4, digits(N))` followed by `.html` — in particular every such
filename has exactly width-plus-extension length — and filenames are
strictly increasing in lexicographic string order along the sequence
indices, for every `N`, including `N` with more than four digits. -/
theorem C3_filename_width_and_order :
    (∀ N i : Nat, 1 ≤ i → i ≤ N →
      file_name_for_index i (run_width N) =
        padLeftZeros (run_width N) (Nat.repr i) ++ ".html" ∧
      (file_name_for_index i (run_width N)).length = run_width N + 5) ∧
    (∀ N i j : Nat, 1 ≤ i → i < j → j ≤ N →
      file_name_for_index i (run_width N) < file_name_for_index j (run_width N)) := by
  constructor
  · intro N i _ hiN
    refine ⟨rfl, ?_⟩
    have hlen : (Nat.repr i).length ≤ run_width N :=
      le_trans (repr_length_mono i N hiN) (le_max_right 4 (Nat.repr N).length)
    show (padLeftZeros (run_width N) (Nat.repr i) ++ ".html").length = run_width N + 5
    rw [String.length_append, padLeftZeros_length (run_width N) (Nat.repr i) hlen]
    rfl
  · intro N i j _ hij hjN
    apply file_name_lt (run_width N) i j hij
    exact le_trans (repr_length_mono j N hjN) (le_max_right 4 (Nat.repr N).length)

/-- Witness for C3: width and ordering at `N = 12345` (five-digit
width) and at `N = 50` (default width 4). -/
theorem C3_filename_width_and_order_witness :
    (file_name_for_index 1 (run_width 12345) =
      padLeftZeros (run_width 12345) (Nat.repr 1) ++ ".html" ∧
      (file_name_for_index 1 (run_width 12345)).length = run_width 12345 + 5) ∧
    file_name_for_index 1 (run_width 12345) < file_name_for_index 12345 (run_width 12345) ∧
    file_name_for_index 7 (run_width 50) < file_name_for_index 50 (run_width 50) :=
  ⟨C3_filename_width_and_order.1 12345 1 (by decide) (by decide),
   C3_filename_width_and_order.2 12345 1 12345 (by decide) (by decide) (by decide),
   C3_filename_width_and_order.2 50 7 50 (by decide) (by decide) (by decide)⟩

end Crawler
